import Mathlib

/-
Verification of the Bichsel/Mazziotta energy-loss straggling core of the
Allpix_GaAs repository.

The development is a shallow embedding of the relevant parts of
`src/modules/DepositionBichsel/DepositionBichselModule.cpp` (stepping engine,
collision-parameter update, cluster emission, MCParticle parent bookkeeping)
and `src/modules/DepositionBichsel/PhotoAbsorptionIonizer.cpp` (shell
ionization and Auger cascade).

Conventions of the embedding:
- C++ `double` values are embedded as exact rationals `ℚ` (the claims are
  about the algorithm, not about IEEE-754 rounding).
- Calls into the C math library whose results are irrational (`log`, `atan`,
  `M_PI`, `pow(14.0, 2.0/3.0)`) are embedded as uninterpreted parameters
  (`MathPrims`, `PhysConsts`).  No theorem below depends on their actual
  values beyond hypotheses stated explicitly.
- The tabulated physics data (HEPS/MACOM/EMERC files, loaded at run time,
  not part of the sources) enters as table-valued parameters (`SiTables`).
- The pseudo-random generator is embedded as an explicit stream of draws
  (`List ℚ`), consumed head first.
- C++ `std::stack<double>` is embedded as `List ℚ` with `push = cons`, so
  the head of the list is the top of the stack.
-/

set_option maxRecDepth 8000

namespace Bichsel

/-! ### Physical constants

Constants from `DepositionBichselModule.hpp` lines 286-299.  They are exact
decimal literals in the source and therefore exact rationals here. -/

/-- Electron mass in MeV, `electron_mass_` in the source. -/
def electron_mass : ℚ := 0.51099906

/-- `rydberg_constant_` in the source. -/
def rydberg_constant : ℚ := 13.6056981

/-- Projectile charge `zi_` in the source. -/
def zi : ℚ := 1

/-- `atomic_number_` (silicon) in the source. -/
def atomic_number : ℚ := 14

/-- `atomic_weight` (silicon) in the source. -/
def atomic_weight : ℚ := 28.086

/-- `density` (silicon) in the source. -/
def density : ℚ := 2.329

/-- `radiation_length` in cm in the source. -/
def radiation_length : ℚ := 9.36

/-- Number of atoms per cubic centimetre, `atnu_` in the source:
`6.0221367e23 * density / atomic_weight`. -/
def atnu : ℚ := 6.0221367e23 * density / atomic_weight

/-- Uninterpreted stand-ins for irrational constants appearing in the source:
`pi` models `M_PI` and `z23` models `pow(atomic_number_, 2.0 / 3.0)`
(line 827).  Theorems are stated for arbitrary values of these fields,
with positivity hypotheses where the argument needs them. -/
structure PhysConsts where
  pi : ℚ
  z23 : ℚ

/-- `fac_` from the source (line 289):
`8.0 * M_PI * rydberg² * pow(0.529177e-8, 2) / electron_mass_ / 1e6`. -/
def fac (C : PhysConsts) : ℚ :=
  8 * C.pi * rydberg_constant ^ 2 * (0.529177e-8 : ℚ) ^ 2 / electron_mass / 1e6

/-- Uninterpreted stand-ins for the transcendental C library calls used in the
collision spectrum: `rlog` models `log` and `ratan` models `atan`. -/
structure MathPrims where
  rlog : ℚ → ℚ
  ratan : ℚ → ℚ

/-! ### Particle kinematics

From `Particle` in `DepositionBichselModule.hpp` lines 49-144. -/

/-- `ParticleType` enumeration from the source. -/
inductive ParticleType
  | NONE
  | PROTON
  | PION
  | KAON
  | ELECTRON
  | MUON
  | HELIUM
  | LITHIUM
  | CARBON
  | IRON
deriving DecidableEq, Repr

/-- Rest masses in MeV from the `mass_` vector of `Particle` (lines 136-143).
The source vector only has entries up to the muon; the remaining species
would throw on `.at()` and are mapped to `0` here (they are never used in
the theorems below). -/
def mass : ParticleType → ℚ
  | .PROTON => 938.2723
  | .PION => 139.578
  | .KAON => 493.67
  | .ELECTRON => 0.51099906
  | .MUON => 105.65932
  | _ => 0

/-- Relativistic gamma, `Particle::update` line 124: `energy_ / mass() + 1.0`. -/
def gammaOf (t : ParticleType) (Ek : ℚ) : ℚ := Ek / mass t + 1

/-- `betasquared_` from `Particle::update` lines 125-126:
`bg² / (1 + bg²)` with `bg² = γ² - 1`. -/
def betasqOf (t : ParticleType) (Ek : ℚ) : ℚ :=
  (gammaOf t Ek ^ 2 - 1) / (1 + (gammaOf t Ek ^ 2 - 1))

/-- The square of `momentum_` from `Particle::update` line 127,
`momentum = mass * betagamma` with `betagamma = sqrt(γ² - 1)`; the source
only ever uses the momentum squared (lines 827 and 836), so the square is
embedded directly and no square root is needed. -/
def momentumSq (t : ParticleType) (Ek : ℚ) : ℚ :=
  mass t ^ 2 * (gammaOf t Ek ^ 2 - 1)

/-! ### Collision type branch

`DepositionBichselModule::stepping` lines 490-516: total mean free path and
the inelastic/elastic decision. -/

/-- Collision type selected by a stepping iteration. -/
inductive CollisionKind
  | INELASTIC
  | ELASTIC
deriving DecidableEq, Repr

/-- `tlam` from line 490: `1 / (inv_collision_length_inelastic +
inv_collision_length_elastic)`, the total mean free path. -/
def tlam (invInel invEl : ℚ) : ℚ := 1 / (invInel + invEl)

/-- The branch at line 516: INELASTIC iff the uniform draw `u` satisfies
`u > tlam * inv_collision_length_elastic`, otherwise ELASTIC. -/
def collisionType (invInel invEl u : ℚ) : CollisionKind :=
  if tlam invInel invEl * invEl < u then .INELASTIC else .ELASTIC

/-! ### Inelastic energy update

`DepositionBichselModule::stepping` lines 538-545 (residual-energy cutoff)
and 693-705 (energy update and absorption test). -/

/-- Result of the inelastic energy bookkeeping for one collision. -/
structure LossResult where
  /-- The (possibly overridden) virtual photon energy in eV. -/
  energyGamma : ℚ
  /-- `residual_kin_energy` in MeV after the cutoff logic. -/
  residual : ℚ
  /-- The particle energy after `setE` (line 694), in MeV. -/
  newE : ℚ
  /-- Whether the absorption break at line 702 fires. -/
  absorbed : Bool
deriving Repr

/-- The inelastic energy update of `stepping`: given kinetic energy `Ek`
(MeV), sampled photon energy `eγ` (eV) and the configured
`explicit_delta_energy_cut_` `cut` (MeV), compute `residual_kin_energy =
Ek - eγ*1e-6` (line 538); if it is below the cut, override the photon energy
with the full remaining energy `Ek*1e6` and recompute the residual
(lines 541-544); then set the particle energy to `Ek - eγ'*1e-6` (line 694)
and test the absorption condition `E < 1e-6 || residual < 1e-6` (line 702). -/
def inelasticLoss (Ek eγ cut : ℚ) : LossResult :=
  let residual0 := Ek - eγ * 1e-6
  let eγ' := if residual0 < cut then Ek * 1e6 else eγ
  let residual := if residual0 < cut then Ek - Ek * 1e6 else residual0
  let newE := Ek - eγ' * 1e-6
  { energyGamma := eγ'
    residual := residual
    newE := newE
    absorbed := decide (newE < 1e-6) || decide (residual < 1e-6) }

/-- One stepping iteration seen through its effect on the kinetic energy:
an elastic collision leaves the energy untouched (lines 712-734 only change
the direction), an inelastic collision applies `inelasticLoss`. -/
inductive StepEvent
  | elastic
  | inelastic (eγ : ℚ)
deriving DecidableEq, Repr

/-- Energy after one stepping iteration. -/
def stepEnergy (cut Ek : ℚ) : StepEvent → ℚ
  | .elastic => Ek
  | .inelastic eγ => (inelasticLoss Ek eγ cut).newE

/-- Energy after a whole trajectory of stepping iterations. -/
def runEnergy (cut : ℚ) : ℚ → List StepEvent → ℚ
  | Ek, [] => Ek
  | Ek, e :: es => runEnergy cut (stepEnergy cut Ek e) es

/-! ### Cluster emission

`DepositionBichselModule::stepping` lines 683-691: a cluster is appended to
the output only under the guard `neh > 0`. -/

/-- The `Cluster` record as constructed at line 686:
`Cluster(neh, particle.position(), energy_gamma, mcparticles.size(),
particle.time())`.  The pair count `neh` is the C++ `unsigned neh`. -/
structure Cluster where
  neh : ℕ
  position : ℚ × ℚ × ℚ
  energyGamma : ℚ
  particle_id : ℕ
  time : ℚ
deriving DecidableEq, Repr

/-- The guarded emission of lines 684-691: append the cluster only if
`neh > 0`. -/
def emitCluster (clusters : List Cluster) (neh : ℕ) (pos : ℚ × ℚ × ℚ)
    (eγ : ℚ) (pid : ℕ) (t : ℚ) : List Cluster :=
  if 0 < neh then clusters ++ [⟨neh, pos, eγ, pid, t⟩] else clusters

/-- All cluster emissions of an event, folded over the inelastic collisions
(each entry carries the pair count and the cluster payload of one
collision). -/
def emitAll : List (ℕ × (ℚ × ℚ × ℚ) × ℚ × ℕ × ℚ) → List Cluster → List Cluster
  | [], cl => cl
  | (n, pos, eγ, pid, t) :: rest, cl => emitAll rest (emitCluster cl n pos eγ pid t)

/-! ### Collision-parameter update

`DepositionBichselModule::stepping` lines 356-485: the update block that is
executed when the particle energy has dropped below 90% of its value at the
previous computation.  -/

/-- The cross-section tables of the module (members `E`, `dE`,
`dielectric_const_real` (`eps1`), `dielectric_const_imag` (`eps2`), `dfdE`,
`oscillator_strength_ae` (`ae`), `xkmn`), indexed by the energy-bin index
`j ∈ [1, 1250]`.  The energy grid is generated in `init` and the remaining
columns are read from the HEPS/MACOM/EMERC data files, which are not part of
the sources; the tables therefore enter the embedding as parameters. -/
structure SiTables where
  E : ℕ → ℚ
  dE : ℕ → ℚ
  dfdE : ℕ → ℚ
  eps1 : ℕ → ℚ
  eps2 : ℕ → ℚ
  ae : ℕ → ℚ
  xkmn : ℕ → ℚ

/-- Number of populated energy bins: `E.size() - 1` with
`HEPS_ENTRIES = 1251`. -/
def numBins : ℕ := 1250

/-- `Emax`, the maximum single-collision energy transfer in eV, from
lines 361-369: the Uehling closed form for heavy particles, overridden by
`0.5 * E` for incident electrons, then scaled to eV. -/
def Emax_of (t : ParticleType) (Ek : ℚ) : ℚ :=
  let g := gammaOf t Ek
  let e := mass t * (g * g - 1) /
    (0.5 * mass t / electron_mass + 0.5 * electron_mass / mass t + g)
  let e := if t = ParticleType.ELECTRON then 0.5 * Ek else e
  1e6 * e

/-- `dec` from line 374: `zi_ * zi_ * atnu_ * fac_ / betasquared`. -/
def decOf (C : PhysConsts) (t : ParticleType) (Ek : ℚ) : ℚ :=
  zi * zi * atnu * fac C / betasqOf t Ek

/-- The per-bin collision spectrum `sig[5][j] = sig[1]+sig[2]+sig[3]+sig[4]`
of lines 394-439: dipole term with the `Q1 < qmin` zero guard (`sig[1]`),
longitudinal excitation (`sig[2] = sgg`), transverse excitation
(`sig[3] = sgh`, including the `atan` branch correction by `+ M_PI`), and
the close-collision term `sig[4]` with Uehling's `uef` (electron variant
for incident electrons). -/
def sigma5 (Pr : MathPrims) (T : SiTables) (C : PhysConsts)
    (t : ParticleType) (Ek Emax : ℚ) (j : ℕ) : ℚ :=
  let bsq := betasqOf t Ek
  let g := gammaOf t Ek
  let EkeV := Ek * 1e6
  let Q1 := if T.E j < 11.9 then (T.xkmn j) ^ 2 * rydberg_constant
    else if T.E j < 100 then (0.025 : ℚ) ^ 2 * rydberg_constant
    else rydberg_constant
  let qmin := T.E j ^ 2 / (2 * electron_mass * 1e6 * bsq)
  let sig1 := if T.E j < 11.9 ∧ Q1 < qmin then 0
    else T.E j * T.dfdE j * Pr.rlog (Q1 / qmin)
  let epbe := max (1 - bsq * T.eps1 j) 1e-20
  let sgg := T.E j * T.dfdE j * (-0.5) *
    Pr.rlog (epbe * epbe + (bsq * T.eps2 j) ^ 2)
  let thet0 := Pr.ratan (T.eps2 j * bsq / epbe)
  let thet := if thet0 < 0 then thet0 + C.pi else thet0
  let sgh := 0.0092456 * T.E j ^ 2 * thet *
    (bsq - T.eps1 j / (T.eps1 j ^ 2 + T.eps2 j ^ 2))
  let uef := if t = ParticleType.ELECTRON then
      1 + (T.E j / (EkeV - T.E j)) ^ 2 + ((g - 1) / g * T.E j / EkeV) ^ 2 -
        (2 * g - 1) * T.E j / (g * g * (EkeV - T.E j))
    else 1 - T.E j * bsq / Emax
  let sig4 := 2 * T.ae j * uef
  sig1 + sgg + sgh + sig4

/-- Accumulator of the collision-spectrum loop of lines 388-451:
`tsig5` is the running sum `tsig[5]`, `H` the per-bin `H[j] = sig[5][j] *
dec / E[j]²`, `nlast` the index of the last contributing bin, and `stpw`
the running stopping power.  `H` starts from the indeterminate contents of
the stack array `table H;` (modelled by the arbitrary initial function). -/
structure SigAcc where
  tsig5 : ℚ
  H : ℕ → ℚ
  nlast : ℕ
  stpw : ℚ

/-- Initial accumulator for one update: `tsig.fill(0)` (line 381), the
fresh uninitialized `H` array, and the `nlast` inherited from line 344 or
from the previous update. -/
def sigAccInit (H0 : ℕ → ℚ) (nlast0 : ℕ) : SigAcc :=
  { tsig5 := 0, H := H0, nlast := nlast0, stpw := 0 }

/-- The loop body of lines 394-450 for bin `j`. -/
def sigStep (Pr : MathPrims) (T : SiTables) (C : PhysConsts)
    (t : ParticleType) (Ek Emax dec : ℚ) (j : ℕ) (acc : SigAcc) : SigAcc :=
  let s5 := sigma5 Pr T C t Ek Emax j
  let HE2 := s5 * dec
  let Hj := HE2 / T.E j ^ 2
  { tsig5 := acc.tsig5 + s5 * T.dE j / (T.E j * T.E j)
    H := fun k => if k = j then Hj else acc.H k
    nlast := j
    stpw := acc.stpw + Hj * T.E j * T.dE j }

/-- The collision-spectrum loop of lines 388-451: iterate over the bin
indices in order, stopping at the first bin with `E[j] > Emax`
(line 390). -/
def sigLoop (Pr : MathPrims) (T : SiTables) (C : PhysConsts)
    (t : ParticleType) (Ek Emax dec : ℚ) : List ℕ → SigAcc → SigAcc
  | [], acc => acc
  | j :: js, acc =>
    if Emax < T.E j then acc
    else sigLoop Pr T C t Ek Emax dec js (sigStep Pr T C t Ek Emax dec j acc)

/-- The bin indices `j = 1, ..., 1250` of the loop `for(j = 1; j < E.size(); ++j)`. -/
def binIndices : List ℕ := List.range' 1 numBins

/-- The accumulator after the full collision-spectrum loop of one update. -/
def sigResult (Pr : MathPrims) (T : SiTables) (C : PhysConsts)
    (t : ParticleType) (Ek : ℚ) (H0 : ℕ → ℚ) (nlast0 : ℕ) : SigAcc :=
  sigLoop Pr T C t Ek (Emax_of t Ek) (decOf C t Ek) binIndices
    (sigAccInit H0 nlast0)

/-- The running integral `totsig` of lines 457-461 before normalization:
`totsig[1] = H[1]*dE[1]` and `totsig[j] = totsig[j-1] + H[j]*dE[j]`
for `j = 2, ..., nlast`; written as a recursion so that `totsigRaw H dE j`
is the value the loop stores in `totsig[j]`. -/
def totsigRaw (H dEf : ℕ → ℚ) : ℕ → ℚ
  | 0 => 0
  | j + 1 => totsigRaw H dEf j + H (j + 1) * dEf (j + 1)

/-- The normalization loop of lines 463-466: every populated entry
`j ∈ [1, nlast]` is divided by `totsig[nlast]`; entries outside that range
keep whatever the per-particle array `table totsig;` (line 349) held
before, modelled by `totsig0`. -/
def normalizedTotsig (H dEf : ℕ → ℚ) (nlast : ℕ) (totsig0 : ℕ → ℚ) : ℕ → ℚ :=
  fun j =>
    if 1 ≤ j ∧ j ≤ nlast then totsigRaw H dEf j / totsigRaw H dEf nlast
    else totsig0 j

/-- `update_elastic_collision_parameters` (lines 821-840).  Returns the pair
`(inv_collision_length_elastic, screening_parameter)`.  For electrons:
Moliere screening `2*2.61*pow(Z,2/3)/p² * 1e-6` and the screened-Rutherford
total cross section scaled by `atnu`; for heavier particles the
radiation-length approximation capped at `10 * radiation_length`, leaving
the screening parameter unchanged. -/
def update_elastic (C : PhysConsts) (t : ParticleType) (Ek screen0 : ℚ) :
    ℚ × ℚ :=
  if t = ParticleType.ELECTRON then
    let screen := 2 * 2.61 * C.z23 / momentumSq t Ek * 1e-6
    let E2 := (14.4e-14 : ℚ)
    let FF := 0.5 * C.pi * E2 * E2 * atomic_number * atomic_number / (Ek * Ek)
    let S0EL := 2 * FF / (screen * (2 + screen))
    (atnu * S0EL, screen)
  else
    let getot := Ek + mass t
    (min (2232.0 * radiation_length * (momentumSq t Ek / (getot * zi)) ^ 2)
      (10.0 * radiation_length), screen0)

/-- The collision parameters held across stepping iterations
(lines 346-349): inverse inelastic path length, inverse elastic path
length, elastic screening parameter, the cumulative table `totsig`, and the
index `nlast` of its last populated bin (line 344). -/
structure CollisionParams where
  invInelastic : ℚ
  invElastic : ℚ
  screening : ℚ
  totsig : ℕ → ℚ
  nlast : ℕ

/-- The full update block of lines 358-476: run the collision-spectrum
loop, set `inv_collision_length_inelastic = tsig[5] * dec` (line 452),
build and normalize `totsig` (lines 455-466), and update the elastic
parameters (line 469). -/
def computeParams (Pr : MathPrims) (T : SiTables) (C : PhysConsts)
    (t : ParticleType) (Ek : ℚ) (H0 totsig0 : ℕ → ℚ) (nlast0 : ℕ)
    (screen0 : ℚ) : CollisionParams :=
  let acc := sigResult Pr T C t Ek H0 nlast0
  { invInelastic := acc.tsig5 * decOf C t Ek
    invElastic := (update_elastic C t Ek screen0).1
    screening := (update_elastic C t Ek screen0).2
    totsig := normalizedTotsig acc.H T.dE acc.nlast totsig0
    nlast := acc.nlast }

/-- The sentinel `Ekprev = 9e9` set when a particle is popped from the delta
queue (line 338): larger than any physical energy so the first iteration
always recomputes. -/
def EkprevInit : ℚ := 9e9

/-- The guarded update at the head of each stepping iteration
(lines 358 and 476): recompute the collision parameters and remember the
energy only if the energy fell below 90% of its value at the previous
computation, otherwise keep everything. -/
def maybeUpdate (Pr : MathPrims) (T : SiTables) (C : PhysConsts)
    (t : ParticleType) (H0 : ℕ → ℚ) (p : CollisionParams)
    (Ekprev Ek : ℚ) : CollisionParams × ℚ :=
  if Ek < 0.9 * Ekprev then
    (computeParams Pr T C t Ek H0 p.totsig p.nlast p.screening, Ek)
  else (p, Ekprev)

/-- The tail of the inelastic branch, lines 707-710: for electrons the
elastic collision parameters are recomputed at the reduced energy after
every inelastic collision; for all other species nothing happens. -/
def postInelasticParams (C : PhysConsts) (t : ParticleType)
    (p : CollisionParams) (Enew : ℚ) : CollisionParams :=
  if t = ParticleType.ELECTRON then
    { p with
      invElastic := (update_elastic C t Enew p.screening).1
      screening := (update_elastic C t Enew p.screening).2 }
  else p

/-- One full pass of the stepping loop through the inelastic branch, seen
through its effect on the collision parameters: the guarded update of
line 358, the energy update `inelasticLoss`, the absorption break of
line 702 (which skips the rest of the branch), and the electron-only
elastic recomputation of lines 707-710.  Returns (parameters, remembered
previous energy, new kinetic energy). -/
def inelasticIteration (Pr : MathPrims) (T : SiTables) (C : PhysConsts)
    (t : ParticleType) (H0 : ℕ → ℚ) (p : CollisionParams)
    (Ekprev Ek eγ cut : ℚ) : CollisionParams × ℚ × ℚ :=
  let pk := maybeUpdate Pr T C t H0 p Ekprev Ek
  let L := inelasticLoss Ek eγ cut
  if L.newE < 1e-6 ∨ L.residual < 1e-6 then (pk.1, pk.2, L.newE)
  else (postInelasticParams C t pk.1 L.newE, pk.2, L.newE)

/-! ### Shell ionization / Auger cascade

`PhotoAbsorptionIonizer.cpp`.  The random draws (`uniform()`, `triangular()`
and the `std::uniform_real_distribution` hole share in `transition`) are
embedded as an explicit stream `List ℚ` consumed head first; an exhausted
stream yields `0`. -/

/-- Consume one draw from the random stream. -/
def next : List ℚ → ℚ × List ℚ
  | [] => (0, [])
  | r :: rs => (r, rs)

/-- Shell binding energies `energy_shell` from
`PhotoAbsorptionIonizer.hpp` lines 89-95
(index 1: valence band edge, 2: M/L23, 3: L1, 4: K). -/
def energy_shell : ℕ → ℚ
  | 1 => 12.0
  | 2 => 99.2
  | 3 => 148.7
  | 4 => 1839.0
  | _ => 0

/-- Energy grid `EPP` of the photoabsorption probability table
(`PhotoAbsorptionIonizer.hpp` lines 118-119). -/
def EPP : ℕ → ℚ
  | 1 => 40.0
  | 2 => 50.0
  | 3 => 99.2
  | 4 => 99.2
  | 5 => 148.7
  | 6 => 148.7
  | 7 => 150.0
  | 8 => 300.0
  | 9 => 500.0
  | 10 => 1000.0
  | 11 => 1839.0
  | 12 => 1839.0
  | 13 => 2000.0
  | _ => 0

/-- M-shell absorption probabilities `PM` (hpp line 120). -/
def PM : ℕ → ℚ
  | 1 => 1.0
  | 2 => 1.0
  | 3 => 1.0
  | 4 => 0.03
  | 5 => 0.03
  | 6 => 0.02
  | 7 => 0.02
  | 8 => 0.02
  | 9 => 0.02
  | 10 => 0.03
  | 11 => 0.05
  | _ => 0

/-- L23-shell absorption probabilities `PL23` (hpp line 121). -/
def PL23 : ℕ → ℚ
  | 4 => 0.97
  | 5 => 0.92
  | 6 => 0.88
  | 7 => 0.88
  | 8 => 0.83
  | 9 => 0.70
  | 10 => 0.55
  | 11 => 0.39
  | _ => 0

/-- L1-shell absorption probabilities `PL1` (hpp line 122). -/
def PL1 : ℕ → ℚ
  | 6 => 0.1
  | 7 => 0.1
  | 8 => 0.15
  | 9 => 0.28
  | 10 => 0.42
  | 11 => 0.56
  | 12 => 0.08
  | 13 => 0.08
  | _ => 0

/-- K-shell absorption probabilities `PK` (hpp line 123). -/
def PK : ℕ → ℚ
  | 12 => 0.92
  | 13 => 0.92
  | _ => 0

/-- The Auger probability integrals `auger_prob_integral` built in the
constructor (`PhotoAbsorptionIonizer.cpp` lines 31-48), written as the same
running sums as the source. -/
def auger_prob_integral : ℕ → ℕ → ℚ
  | 4, 1 => 0.1920
  | 4, 2 => 0.3885 + 0.1920
  | 4, 3 => 0.2325 + (0.3885 + 0.1920)
  | 4, 4 => 0.0720 + (0.2325 + (0.3885 + 0.1920))
  | 4, 5 => 0.0030 + (0.0720 + (0.2325 + (0.3885 + 0.1920)))
  | 4, 6 => 0.1000 + (0.0030 + (0.0720 + (0.2325 + (0.3885 + 0.1920))))
  | 4, 7 => 0.0040 + (0.1000 + (0.0030 + (0.0720 + (0.2325 + (0.3885 + 0.1920)))))
  | 4, 8 => 0.0070 + (0.0040 + (0.1000 + (0.0030 + (0.0720 + (0.2325 + (0.3885 + 0.1920))))))
  | 4, 9 => 0.0010 + (0.0070 + (0.0040 + (0.1000 + (0.0030 + (0.0720 + (0.2325 + (0.3885 + 0.1920)))))))
  | 3, 1 => 0.0250
  | 3, 2 => 0.9750 + 0.0250
  | 2, 1 => 0.9990
  | 2, 2 => 0.0010 + 0.9990
  | _, _ => 0

/-- The Auger emission energies `auger_energy` from the constructor
(cpp lines 53-70). -/
def auger_energy : ℕ → ℕ → ℚ
  | 4, 1 => 1541.6
  | 4, 2 => 1591.1
  | 4, 3 => 1640.6
  | 4, 4 => 1690.3
  | 4, 5 => 1690.3
  | 4, 6 => 1739.8
  | 4, 7 => 1739.8
  | 4, 8 => 1839.0
  | 4, 9 => 1839.0
  | 3, 1 => 148.7
  | 3, 2 => 49.5
  | 2, 1 => 99.2
  | 2, 2 => 0.0
  | _, _ => 0

/-- `nvac`, the number of transitions per shell (hpp line 84). -/
def nvac : ℕ → ℕ
  | 2 => 2
  | 3 => 2
  | 4 => 9
  | _ => 0

/-- The energy-bin search of `getIonization` lines 90-96:
`for(iep = 3; iep < 13; ++iep) if(eγ > EPP[iep] && eγ <= EPP[iep+1]) break`,
returning the loop index at exit (13 when no bin matched). -/
def findBin (eγ : ℚ) : ℕ := go eγ 3 10
where
  /-- Loop helper: `j` is the current `iep`, the fuel counts the remaining
  iterations of the strictly bounded `for`. -/
  go (eγ : ℚ) : ℕ → ℕ → ℕ
  | j, 0 => j
  | j, f + 1 => if EPP j < eγ ∧ eγ ≤ EPP (j + 1) then j else go eγ (j + 1) f

/-- The linear interpolation of lines 99-102 for one shell column `P`. -/
def interp (P : ℕ → ℚ) (i : ℕ) (eγ : ℚ) : ℚ :=
  P i + (P (i + 1) - P i) / (EPP (i + 1) - EPP i) * (eγ - EPP i)

/-- Shell selection, `getIonization` lines 77-122: valence band for
`eγ ≤ 12`, index 1 for `eγ ≤ EPP[3]`, otherwise interpolate (or saturate
above `EPP[13]`) the four shell probabilities, normalize their running sums
by the total `PPV`, draw `rs` and take the first index whose normalized
cumulative probability exceeds the draw, capped at 4. -/
def shellSelect (eγ : ℚ) (rs : List ℚ) : ℕ × List ℚ :=
  if eγ ≤ energy_shell 1 then (0, rs)
  else if eγ ≤ EPP 3 then (1, rs)
  else
    let pv :=
      if EPP 13 < eγ then (PM 13, PL23 13, PL1 13, PK 13)
      else
        let i := findBin eγ
        (interp PM i eγ, interp PL23 i eγ, interp PL1 i eγ, interp PK i eγ)
    let PPV := pv.1 + pv.2.1 + pv.2.2.1 + pv.2.2.2
    let c1 := pv.1
    let c2 := c1 + pv.2.1
    let c3 := c2 + pv.2.2.1
    let c4 := c3 + pv.2.2.2
    let d := next rs
    let iv := if d.1 < c1 / PPV then 1
      else if d.1 < c2 / PPV then 2
      else if d.1 < c3 / PPV then 3
      else if d.1 < c4 / PPV then 4
      else 5
    (min iv 4, d.2)

/-- Photoabsorption in the valence band, `getIonization` lines 129-144:
below `0.1` eV nothing is deposited; otherwise the energy is split between
one electron and one hole by a uniform draw `rv`, with the hole share
capped at the valence band width when `eγ ≥ 12`.  The head of the returned
list is the top of the stack. -/
def valence (eγ : ℚ) (rs : List ℚ) : List ℚ :=
  if eγ < 0.1 then []
  else
    let d := next rs
    if eγ < energy_shell 1 then [(1 - d.1) * eγ, d.1 * eγ]
    else [eγ - d.1 * energy_shell 1, d.1 * energy_shell 1]

/-- `PhotoAbsorptionIonizer::transition` (cpp lines 316-328): emit the Auger
electron at `energy_auger - energy` with `energy = (1 + triangular()) * 12`,
then split `energy` between the two holes with a uniform draw on
`[max(0, energy-12), min(energy, 12)]`. -/
def transitionShell (energy_auger : ℚ) (veh rs : List ℚ) :
    List ℚ × List ℚ :=
  let d1 := next rs
  let energy := (1 + d1.1) * energy_shell 1
  let lo := max 0 (energy - energy_shell 1)
  let hi := min energy (energy_shell 1)
  let d2 := next d1.2
  let hole := lo + d2.1 * (hi - lo)
  ((energy - hole) :: hole :: (energy_auger - energy) :: veh, d2.2)

/-- The transition-process selection of lines 161-176: `ks = 1` by default;
for the L shells `ks = 2` when the draw exceeds the first probability
integral; for the K shell, scan `js = 2, ..., nvac[4]` and keep the last
`js` whose probability window contains the draw. -/
def ksOf (is : ℕ) (raug : ℚ) : ℕ :=
  if is ≤ 1 then 1
  else if is ≤ 3 then
    (if auger_prob_integral is 1 < raug then 2 else 1)
  else if auger_prob_integral is 1 ≤ raug then
    (List.range' 2 8).foldl
      (fun ks js =>
        if auger_prob_integral is (js - 1) ≤ raug ∧
            raug < auger_prob_integral is js then js else ks) 1
  else 1

/-- The L1-vacancy relaxation block (cpp lines 259-272, repeated at
277-309, and equivalent to lines 221-233 with the condition read off the
same draw): with probability `auger_prob_integral[3][1]` a `TRANSITION L1 M M`,
otherwise a `TRANSITION L1 L23 M` that splits `auger_energy[3][2]` against a
valence hole and may be followed by a `TRANSITION L23 M M`. -/
def l1Block (veh rs : List ℚ) : List ℚ × List ℚ :=
  let d := next rs
  if auger_prob_integral 3 1 < d.1 then
    let d1 := next d.2
    let energy := energy_shell 1 * d1.1
    let veh := (auger_energy 3 2 - energy) :: energy :: veh
    let d2 := next d1.2
    if d2.1 ≤ auger_prob_integral 2 1 then
      transitionShell (auger_energy 2 1) veh d2.2
    else (veh, d2.2)
  else transitionShell (auger_energy 3 1) veh d.2

/-- The L23-vacancy relaxation (cpp lines 239-247 pattern): a
`TRANSITION L23 M M` with probability `auger_prob_integral[2][1]`. -/
def l23Block (veh rs : List ℚ) : List ℚ × List ℚ :=
  let d := next rs
  if d.1 ≤ auger_prob_integral 2 1 then
    transitionShell (auger_energy 2 1) veh d.2
  else (veh, d.2)

/-- Photoabsorption in an inner shell, `getIonization` lines 146-313:
compute the photoelectron energy `Ephe = eγ - energy_shell[is]`; abort with
an empty stack if it is not positive; otherwise emit the photoelectron,
select the transition process `ks` and walk the shell-specific Auger
decision tree. -/
def innerShell (is : ℕ) (eγ : ℚ) (rs : List ℚ) : List ℚ :=
  let Ephe := eγ - energy_shell is
  if Ephe ≤ 0 then []
  else
    let veh := [Ephe]
    let d := next rs
    let ks := ksOf is d.1
    let rs := d.2
    if is = 2 then
      (if ks = 1 then (transitionShell (auger_energy 2 1) veh rs).1 else veh)
    else if is = 3 then
      (if ks = 2 then
        let d1 := next rs
        let energy := energy_shell 1 * d1.1
        let veh := (auger_energy 3 ks - energy) :: energy :: veh
        (l23Block veh d1.2).1
      else (transitionShell (auger_energy 3 1) veh rs).1)
    else if is = 4 then
      (if 8 ≤ ks then (transitionShell (auger_energy 4 ks) veh rs).1
      else if ks = 6 ∨ ks = 7 then
        let d1 := next rs
        let energy := energy_shell 1 * d1.1
        let veh := (auger_energy 4 ks - energy) :: energy :: veh
        (l23Block veh d1.2).1
      else if ks = 4 ∨ ks = 5 then
        let d1 := next rs
        let energy := energy_shell 1 * d1.1
        let veh := (auger_energy 4 ks - energy) :: energy :: veh
        (l1Block veh d1.2).1
      else if ks = 3 then
        let veh := auger_energy 4 3 :: veh
        let r1 := l23Block veh rs
        (l23Block r1.1 r1.2).1
      else if ks = 2 then
        let veh := auger_energy 4 2 :: veh
        let r1 := l23Block veh rs
        (l1Block r1.1 r1.2).1
      else
        let veh := auger_energy 4 1 :: veh
        let r1 := l1Block veh rs
        (l1Block r1.1 r1.2).1)
    else veh

/-- `PhotoAbsorptionIonizer::getIonization`: select the absorbing shell,
then branch into the valence-band split (`is ≤ 1`, lines 129-144) or the
inner-shell cascade (lines 146-313). -/
def getIonization (eγ : ℚ) (rs : List ℚ) : List ℚ :=
  let s := shellSelect eγ rs
  if s.1 ≤ 1 then valence eγ s.2 else innerShell s.1 eγ s.2

/-! ### Direction updates

The frame transform applied to the local scattering direction, used both
for the delta-ray emission direction (lines 596-601) and for the elastic
rotation of the particle direction (lines 727-733).  The source computes
`cz = direction.Z()`, `sz = sqrt(1 - cz²)`, `phif = atan2(Y, X)`;
here the values `sz`, `cos(phif)`, `sin(phif)`, and the sampled
`cost`/`sint`, `cos(phi)`/`sin(phi)` enter as parameters constrained by the
algebraic identities the square roots and trigonometric calls guarantee. -/

/-- The local scattering direction `din` (lines 589 and 720):
`(sint*cos(phi), sint*sin(phi), cost)`. -/
def dinOf (sint cost cphi sphi : ℚ) : ℚ × ℚ × ℚ :=
  (sint * cphi, sint * sphi, cost)

/-- The rotation into the detector system (lines 599-601 and 731-733),
applied to a local direction `(d0, d1, d2)`. -/
def rotateToDetector (cz sz cphif sphif d0 d1 d2 : ℚ) : ℚ × ℚ × ℚ :=
  (cz * cphif * d0 - sphif * d1 + sz * cphif * d2,
   cz * sphif * d0 + cphif * d1 + sz * sphif * d2,
   -sz * d0 + cz * d2)

/-- Squared Euclidean norm of an embedded 3-vector. -/
def normSq (v : ℚ × ℚ × ℚ) : ℚ := v.1 ^ 2 + v.2.1 ^ 2 + v.2.2 ^ 2

/-! ### MCParticle parentage bookkeeping

`DepositionBichselModule::stepping`: particles are popped from the delta
queue (lines 337-341); a secondary generated during an inelastic collision
is enqueued with `mcparticles.size()` as its parent id (lines 629-634); the
MCParticle record (and its parent id) of the particle being stepped is
appended only after its step loop finishes (lines 744-752); parent pointers
are resolved from the stored ids only after the delta queue is empty
(lines 777-786), with negative ids (primaries) left unlinked.

Since `stepping` pushes to `mcparticles` only at line 744, after the step
loop of the particle, the list size seen by every enqueue during that loop
equals the index at which the particle's own record is then appended; one
iteration of the outer `while(!deltas.empty())` loop is therefore embedded
as an atomic step.  Only the parent ids matter for the claim, so a queue
entry and an MCParticle record are both represented by their parent id
(`int` in the source, `ℤ` here), and the number of secondaries spawned by
each processed particle is supplied by an oracle list. -/

/-- Run the outer delta-queue loop: pop the front particle, enqueue its
`k` secondaries at the back with parent id `mcparticles.size()`, then
append the particle's own record.  The oracle provides `k` for each
iteration; the loop stops when the queue (or the oracle) is exhausted. -/
def runStepping : List ℕ → List ℤ → List ℤ → List ℤ
  | _, [], mcs => mcs
  | [], _, mcs => mcs
  | k :: os, p :: rest, mcs =>
    runStepping os (rest ++ List.replicate k (mcs.length : ℤ)) (mcs ++ [p])

/-- The parent-resolution pass of lines 777-786: ids `≥ 0` are resolved to
the MCParticle at that index, negative ids (primaries) get no parent. -/
def resolveParents (mcs : List ℤ) : List (Option ℕ) :=
  mcs.map (fun p => if 0 ≤ p then some p.toNat else none)

/-- The records from position `k` on have parent ids pointing strictly
before themselves. -/
def ParentsOKFrom : ℕ → List ℤ → Prop
  | _, [] => True
  | k, p :: rest => p < (k : ℤ) ∧ ParentsOKFrom (k + 1) rest

/-! ### Claim statements under test

Formalizations of spec claims that are settled negatively; each is written
exactly as the claim reads, so that its negation can be proved at a
concrete input. -/

/-- The statement of claim C2 as written: for every collision-parameter
update with at least one valid bin (`1 ≤ nlast`), and with no further
assumption on the accumulated per-bin cross sections `H[j] * dE[j]`, the
normalized `totsig` is non-decreasing over the populated bins and its last
populated entry equals 1. -/
def c2ClaimStatement : Prop :=
  ∀ (H dEf totsig0 : ℕ → ℚ) (nlast : ℕ), 1 ≤ nlast →
    (∀ j, 1 ≤ j → j < nlast →
      normalizedTotsig H dEf nlast totsig0 j ≤
        normalizedTotsig H dEf nlast totsig0 (j + 1)) ∧
    normalizedTotsig H dEf nlast totsig0 nlast = 1

/-- The statement of claim C8 as written: on every stepping iteration on
which the energy has not fallen below 90% of its value at the previous
computation, all four collision parameters (inverse inelastic path length,
inverse elastic path length, screening parameter, `totsig`) stay unchanged
-- here instantiated on an iteration that takes the inelastic branch. -/
def c8ClaimStatement : Prop :=
  ∀ (Pr : MathPrims) (T : SiTables) (C : PhysConsts) (t : ParticleType)
    (H0 : ℕ → ℚ) (p : CollisionParams) (Ekprev Ek eγ cut : ℚ),
    0 < C.pi → 0 < C.z23 → 0 < Ek → 0 < eγ → 0 < cut →
    ¬ Ek < 0.9 * Ekprev →
    (inelasticIteration Pr T C t H0 p Ekprev Ek eγ cut).1 = p

/-! ## Theorems -/

/-- Claim C3: for every stepped particle, kinetic energy is non-increasing
and never becomes negative; when the residual energy after a sampled
inelastic loss falls below the configured `delta_energy_cut`, the full
remaining kinetic energy is deposited in that collision (`energy_gamma`
becomes `E*1e6` eV), the energy after the update is exactly zero, and the
absorption break fires. -/
theorem c3_energy_monotone_nonneg (cut : ℚ) (hcut : 0 < cut) :
    (∀ Ek eγ, 0 ≤ Ek → 0 < eγ →
      (inelasticLoss Ek eγ cut).newE ≤ Ek ∧ 0 ≤ (inelasticLoss Ek eγ cut).newE) ∧
    (∀ Ek eγ, 0 ≤ Ek → Ek - eγ * 1e-6 < cut →
      (inelasticLoss Ek eγ cut).energyGamma = Ek * 1e6 ∧
      (inelasticLoss Ek eγ cut).newE = 0 ∧
      (inelasticLoss Ek eγ cut).absorbed = true) ∧
    (∀ Ek evs, 0 ≤ Ek → (∀ eγ, StepEvent.inelastic eγ ∈ evs → 0 < eγ) →
      0 ≤ runEnergy cut Ek evs ∧ runEnergy cut Ek evs ≤ Ek) := by
  have hzero : ∀ Ek : ℚ, Ek - Ek * 1e6 * 1e-6 = 0 := fun Ek => by ring
  have hstep : ∀ Ek eγ : ℚ, 0 ≤ Ek → 0 < eγ →
      (inelasticLoss Ek eγ cut).newE ≤ Ek ∧ 0 ≤ (inelasticLoss Ek eγ cut).newE := by
    intro Ek eγ hEk heγ
    unfold inelasticLoss
    by_cases h : Ek - eγ * 1e-6 < cut
    · simp only [h, if_true]
      constructor
      · linarith [hzero Ek]
      · linarith [hzero Ek]
    · simp only [h, if_false]
      constructor
      · nlinarith
      · linarith [not_lt.1 h]
  refine ⟨hstep, ?_, ?_⟩
  · intro Ek eγ hEk h
    unfold inelasticLoss
    simp only [h, if_true]
    refine ⟨trivial, by ring, ?_⟩
    rw [Bool.or_eq_true, decide_eq_true_eq, decide_eq_true_eq]
    left
    linarith [hzero Ek]
  · intro Ek evs hEk hpos
    induction evs generalizing Ek with
    | nil => exact ⟨hEk, le_refl Ek⟩
    | cons e es ih =>
      have hone : 0 ≤ stepEnergy cut Ek e ∧ stepEnergy cut Ek e ≤ Ek := by
        cases e with
        | elastic => exact ⟨hEk, le_refl Ek⟩
        | inelastic eγ =>
          have h := hstep Ek eγ hEk (hpos eγ (by simp))
          exact ⟨h.2, h.1⟩
      have h := ih (stepEnergy cut Ek e) hone.1 (fun eγ hm => hpos eγ (by simp [hm]))
      exact ⟨h.1, le_trans h.2 hone.2⟩

/-- Witness for C3 at the default cut `0.009` MeV: a 2 MeV photon sampled
from a 1 MeV particle triggers the forced absorption, and a short
trajectory stays below the initial energy. -/
theorem c3_witness :
    (inelasticLoss 1 2000000 (9 / 1000)).newE = 0 ∧
    (inelasticLoss 1 2000000 (9 / 1000)).absorbed = true ∧
    runEnergy (9 / 1000) 1 [StepEvent.inelastic 5, StepEvent.elastic] ≤ 1 := by
  have h := c3_energy_monotone_nonneg (9 / 1000) (by norm_num)
  have hforced := h.2.1 1 2000000 (by norm_num) (by norm_num)
  refine ⟨hforced.2.1, hforced.2.2, ?_⟩
  refine (h.2.2 1 [StepEvent.inelastic 5, StepEvent.elastic] (by norm_num) ?_).2
  intro eγ hm
  simp only [List.mem_cons, List.not_mem_nil, or_false] at hm
  rcases hm with hm | hm
  · cases hm; norm_num
  · cases hm

/-- Claim C4: the collision-type branch chooses INELASTIC exactly when the
uniform draw `u` exceeds `λ_total / λ_elastic = inv_elastic /
(inv_inelastic + inv_elastic)`, and ELASTIC otherwise; the complementary
probability mass `1 - inv_el/(inv_inel+inv_el)` equals
`inv_inel/(inv_inel+inv_el)`, so each collision type is selected with
probability proportional to its own inverse mean free path. -/
theorem c4_collision_branch (invInel invEl u : ℚ)
    (hi : 0 < invInel) (he : 0 < invEl) :
    (collisionType invInel invEl u = CollisionKind.INELASTIC ↔
      invEl / (invInel + invEl) < u) ∧
    tlam invInel invEl * invEl = invEl / (invInel + invEl) ∧
    tlam invInel invEl * invEl = tlam invInel invEl / (1 / invEl) ∧
    1 - invEl / (invInel + invEl) = invInel / (invInel + invEl) := by
  have hsum : invInel + invEl ≠ 0 := by positivity
  have he' : invEl ≠ 0 := ne_of_gt he
  have h1 : tlam invInel invEl * invEl = invEl / (invInel + invEl) := by
    unfold tlam; field_simp
  refine ⟨?_, h1, ?_, ?_⟩
  · unfold collisionType
    rw [h1]
    split_ifs with h
    · simp [h]
    · simp [h]
  · unfold tlam; field_simp
  · field_simp

/-- Witness for C4: with equal inverse path lengths and `u = 1`, the branch
selects INELASTIC since `1 > 1/2`. -/
theorem c4_witness : collisionType 1 1 1 = CollisionKind.INELASTIC := by
  have h := c4_collision_branch 1 1 1 (by norm_num) (by norm_num)
  exact h.1.mpr (by norm_num)

/-- Claim C5: the local `(theta, phi)` direction `din` is unit length, and
the frame transform built from the particle's own direction maps every unit
vector to a unit vector; hence both the elastic rotation of the particle
direction and the delta-ray emission direction are unit length whenever the
particle direction was unit length (`cz² + sz² = 1` with
`sz = sqrt(1 - cz²)`, `cphif² + sphif² = 1` from `atan2`).  In exact
arithmetic the norm is exactly 1, in particular within the 1e-9 tolerance
of the claim. -/
theorem c5_directions_unit (cz sz cphif sphif cost sint cphi sphi : ℚ)
    (hz : cz ^ 2 + sz ^ 2 = 1) (hf : cphif ^ 2 + sphif ^ 2 = 1)
    (hp : cphi ^ 2 + sphi ^ 2 = 1) (ht : sint ^ 2 + cost ^ 2 = 1) :
    normSq (dinOf sint cost cphi sphi) = 1 ∧
    ∀ d0 d1 d2 : ℚ, d0 ^ 2 + d1 ^ 2 + d2 ^ 2 = 1 →
      normSq (rotateToDetector cz sz cphif sphif d0 d1 d2) = 1 := by
  constructor
  · show (sint * cphi) ^ 2 + (sint * sphi) ^ 2 + cost ^ 2 = 1
    linear_combination sint ^ 2 * hp + ht
  · intro d0 d1 d2 hd
    show (cz * cphif * d0 - sphif * d1 + sz * cphif * d2) ^ 2 +
      (cz * sphif * d0 + cphif * d1 + sz * sphif * d2) ^ 2 +
      (-sz * d0 + cz * d2) ^ 2 = 1
    linear_combination
      (cz ^ 2 * d0 ^ 2 + d1 ^ 2 + sz ^ 2 * d2 ^ 2 + 2 * cz * sz * d0 * d2) * hf +
      (d0 ^ 2 + d2 ^ 2) * hz + hd

/-- Witness for C5 at a concrete frame (`cz = 3/5`, `sz = 4/5`, `phif = 0`)
and a concrete local direction. -/
theorem c5_witness :
    normSq (dinOf 1 0 0 1) = 1 ∧
    normSq (rotateToDetector (3 / 5) (4 / 5) 1 0 0 0 1) = 1 := by
  have h := c5_directions_unit (3 / 5) (4 / 5) 1 0 0 1 0 1
    (by norm_num) (by norm_num) (by norm_num) (by norm_num)
  exact ⟨h.1, h.2 0 0 1 (by norm_num)⟩

/-- Claim C9: clusters are only ever appended under the guard `neh > 0`, so
every cluster in the output of any sequence of emissions has a strictly
positive electron-hole pair count (in particular the count, a natural
number, is never negative and never zero). -/
theorem c9_cluster_pairs_positive (evs : List (ℕ × (ℚ × ℚ × ℚ) × ℚ × ℕ × ℚ))
    (cl : List Cluster) (h0 : ∀ c ∈ cl, 0 < c.neh) :
    ∀ c ∈ emitAll evs cl, 0 < c.neh := by
  induction evs generalizing cl with
  | nil => exact h0
  | cons e rest ih =>
    obtain ⟨n, pos, eγ, pid, t⟩ := e
    show ∀ c ∈ emitAll rest (emitCluster cl n pos eγ pid t), 0 < c.neh
    refine ih (emitCluster cl n pos eγ pid t) ?_
    intro c hc
    unfold emitCluster at hc
    split_ifs at hc with hn
    · rcases List.mem_append.1 hc with h | h
      · exact h0 c h
      · simp only [List.mem_singleton] at h
        subst h
        exact hn
    · exact h0 c hc

/-- Witness for C9: a zero-pair collision emits nothing and a three-pair
collision emits a cluster with positive count. -/
theorem c9_witness : 0 < (Cluster.mk 3 (0, 0, 0) 7 1 0).neh :=
  c9_cluster_pairs_positive
    [(0, ((0 : ℚ), (0 : ℚ), (0 : ℚ)), (5 : ℚ), 0, (0 : ℚ)),
     (3, ((0 : ℚ), (0 : ℚ), (0 : ℚ)), (7 : ℚ), 1, (0 : ℚ))]
    [] (by simp) (Cluster.mk 3 (0, 0, 0) 7 1 0) (by decide)

/-- The bin index list starts with bin 1. -/
theorem binIndices_cons : binIndices = 1 :: List.range' 2 1249 := by
  unfold binIndices numBins
  rw [show (1250 : ℕ) = 1249 + 1 from rfl, List.range'_succ]

/-- Unfolding lemma for one iteration of the collision-spectrum loop. -/
theorem sigLoop_cons (Pr : MathPrims) (T : SiTables) (C : PhysConsts)
    (t : ParticleType) (Ek Emax dec : ℚ) (j : ℕ) (js : List ℕ)
    (acc : SigAcc) :
    sigLoop Pr T C t Ek Emax dec (j :: js) acc =
      if Emax < T.E j then acc
      else sigLoop Pr T C t Ek Emax dec js (sigStep Pr T C t Ek Emax dec j acc) :=
  rfl

/-- Claim C1: when `Emax` is below the first table energy `E[1]`, the
collision-spectrum loop contributes nothing (the accumulator is returned
unchanged), the inverse inelastic path length is zero, the denominator of
the total mean free path is still positive (no division by zero), and the
collision-type branch never selects INELASTIC for a uniform draw in
`[0, 1)` -- no inelastic collision occurs on this leg. -/
theorem c1_emax_below_first_bin (Pr : MathPrims) (T : SiTables)
    (C : PhysConsts) (t : ParticleType) (Ek u : ℚ) (H0 totsig0 : ℕ → ℚ)
    (nlast0 : ℕ) (screen0 : ℚ)
    (hEmax : Emax_of t Ek < T.E 1)
    (hEl : 0 < (computeParams Pr T C t Ek H0 totsig0 nlast0 screen0).invElastic)
    (_hu0 : 0 ≤ u) (hu1 : u < 1) :
    sigResult Pr T C t Ek H0 nlast0 = sigAccInit H0 nlast0 ∧
    (computeParams Pr T C t Ek H0 totsig0 nlast0 screen0).invInelastic = 0 ∧
    0 < (computeParams Pr T C t Ek H0 totsig0 nlast0 screen0).invInelastic +
      (computeParams Pr T C t Ek H0 totsig0 nlast0 screen0).invElastic ∧
    collisionType
      (computeParams Pr T C t Ek H0 totsig0 nlast0 screen0).invInelastic
      (computeParams Pr T C t Ek H0 totsig0 nlast0 screen0).invElastic u =
      CollisionKind.ELASTIC := by
  have hres : sigResult Pr T C t Ek H0 nlast0 = sigAccInit H0 nlast0 := by
    unfold sigResult
    rw [binIndices_cons, sigLoop_cons, if_pos hEmax]
  have hinv : (computeParams Pr T C t Ek H0 totsig0 nlast0 screen0).invInelastic = 0 := by
    show (sigResult Pr T C t Ek H0 nlast0).tsig5 * decOf C t Ek = 0
    rw [hres]
    show (0 : ℚ) * decOf C t Ek = 0
    exact zero_mul _
  have hne : (computeParams Pr T C t Ek H0 totsig0 nlast0 screen0).invElastic ≠ 0 :=
    ne_of_gt hEl
  refine ⟨hres, hinv, ?_, ?_⟩
  · rw [hinv, zero_add]
    exact hEl
  · rw [hinv]
    show (if tlam 0 (computeParams Pr T C t Ek H0 totsig0 nlast0 screen0).invElastic *
        (computeParams Pr T C t Ek H0 totsig0 nlast0 screen0).invElastic < u
      then CollisionKind.INELASTIC else CollisionKind.ELASTIC) = CollisionKind.ELASTIC
    have h1 : tlam 0 (computeParams Pr T C t Ek H0 totsig0 nlast0 screen0).invElastic *
        (computeParams Pr T C t Ek H0 totsig0 nlast0 screen0).invElastic = 1 := by
      unfold tlam
      rw [zero_add, one_div, inv_mul_cancel₀ hne]
    rw [h1]
    exact if_neg (by linarith)

/-- Witness for C1: a 1 MeV proton against a table whose first energy bin
is far above its maximum energy transfer. -/
theorem c1_witness :
    (computeParams ⟨fun _ => 0, fun _ => 0⟩
      ⟨fun _ => 1e9, fun _ => 1, fun _ => 0, fun _ => 0, fun _ => 0,
        fun _ => 0, fun _ => 0⟩
      ⟨1, 1⟩ ParticleType.PROTON 1 (fun _ => 0) (fun _ => 0) 1250 0).invInelastic = 0 ∧
    collisionType
      (computeParams ⟨fun _ => 0, fun _ => 0⟩
        ⟨fun _ => 1e9, fun _ => 1, fun _ => 0, fun _ => 0, fun _ => 0,
          fun _ => 0, fun _ => 0⟩
        ⟨1, 1⟩ ParticleType.PROTON 1 (fun _ => 0) (fun _ => 0) 1250 0).invInelastic
      (computeParams ⟨fun _ => 0, fun _ => 0⟩
        ⟨fun _ => 1e9, fun _ => 1, fun _ => 0, fun _ => 0, fun _ => 0,
          fun _ => 0, fun _ => 0⟩
        ⟨1, 1⟩ ParticleType.PROTON 1 (fun _ => 0) (fun _ => 0) 1250 0).invElastic
      (1 / 2) = CollisionKind.ELASTIC := by
  have h := c1_emax_below_first_bin ⟨fun _ => 0, fun _ => 0⟩
    ⟨fun _ => 1e9, fun _ => 1, fun _ => 0, fun _ => 0, fun _ => 0,
      fun _ => 0, fun _ => 0⟩
    ⟨1, 1⟩ ParticleType.PROTON 1 (1 / 2) (fun _ => 0) (fun _ => 0) 1250 0
    (by
      norm_num [Emax_of, gammaOf, mass, electron_mass]
      split_ifs <;> norm_num)
    (by
      norm_num [computeParams, update_elastic, momentumSq, gammaOf, mass,
        atnu, radiation_length, zi, density, atomic_weight, atomic_number,
        lt_min_iff]
      split_ifs <;> norm_num)
    (by norm_num) (by norm_num)
  exact ⟨h.2.1, h.2.2.2⟩

/-- Claim C2 (amended): the normalized `totsig` table is non-decreasing
over the populated bins and its last populated entry equals 1 for every
update with at least one valid bin, provided the accumulated per-bin
cross-section contributions `H[j] * dE[j]` are nonnegative and their total
is positive (as they are for physical table data). -/
theorem c2_totsig_monotone_one (H dEf totsig0 : ℕ → ℚ) (nlast : ℕ)
    (h1 : 1 ≤ nlast)
    (hnn : ∀ j, 1 ≤ j → j ≤ nlast → 0 ≤ H j * dEf j)
    (hpos : 0 < totsigRaw H dEf nlast) :
    (∀ j, 1 ≤ j → j < nlast →
      normalizedTotsig H dEf nlast totsig0 j ≤
        normalizedTotsig H dEf nlast totsig0 (j + 1)) ∧
    normalizedTotsig H dEf nlast totsig0 nlast = 1 := by
  constructor
  · intro j hj1 hjn
    unfold normalizedTotsig
    rw [if_pos ⟨hj1, le_of_lt hjn⟩, if_pos ⟨le_trans hj1 (Nat.le_succ j), hjn⟩]
    rw [div_le_div_iff_of_pos_right hpos]
    show totsigRaw H dEf j ≤ totsigRaw H dEf j + H (j + 1) * dEf (j + 1)
    exact le_add_of_nonneg_right (hnn (j + 1) (le_trans hj1 (Nat.le_succ j)) hjn)
  · unfold normalizedTotsig
    rw [if_pos ⟨h1, le_refl nlast⟩]
    exact div_self (ne_of_gt hpos)

/-- Witness for C2 at a concrete table with two unit bins. -/
theorem c2_witness :
    normalizedTotsig (fun _ => 1) (fun _ => 1) 2 (fun _ => 0) 2 = 1 ∧
    normalizedTotsig (fun _ => 1) (fun _ => 1) 2 (fun _ => 0) 1 ≤
      normalizedTotsig (fun _ => 1) (fun _ => 1) 2 (fun _ => 0) 2 := by
  have htot : totsigRaw (fun _ : ℕ => (1 : ℚ)) (fun _ => 1) 2 = 2 := by
    show (0 : ℚ) + 1 * 1 + 1 * 1 = 2
    norm_num
  have h := c2_totsig_monotone_one (fun _ => 1) (fun _ => 1) (fun _ => 0) 2
    (by norm_num) (fun j _ _ => by norm_num) (by rw [htot]; norm_num)
  exact ⟨h.2, h.1 1 (le_refl 1) (by norm_num)⟩

/-- Counterexample for C2 as stated: with a (degenerate) all-zero
cross-section column the single populated bin is valid, yet the
normalization divides zero by zero and the last populated entry of the
normalized `totsig` is not 1. -/
theorem c2_counterexample : ¬ c2ClaimStatement := by
  intro h
  have h2 := (h (fun _ => 0) (fun _ => 1) (fun _ => 0) 1 (le_refl 1)).2
  have h0 : totsigRaw (fun _ : ℕ => (0 : ℚ)) (fun _ => 1) 1 = 0 := by
    show (0 : ℚ) + 0 * 1 = 0
    norm_num
  have hval : normalizedTotsig (fun _ => 0) (fun _ => 1) 1 (fun _ => 0) 1 = 0 := by
    unfold normalizedTotsig
    rw [if_pos ⟨le_refl 1, le_refl 1⟩, h0]
    norm_num
  rw [hval] at h2
  exact absurd h2 (by norm_num)

/-- Appending a record whose parent id lies strictly before the append
position preserves the parent invariant. -/
theorem parentsOKFrom_append (l : List ℤ) (k : ℕ) (q : ℤ)
    (hl : ParentsOKFrom k l) (hq : q < (k : ℤ) + (l.length : ℤ)) :
    ParentsOKFrom k (l ++ [q]) := by
  induction l generalizing k with
  | nil => exact ⟨by simpa using hq, trivial⟩
  | cons p rest ih =>
    refine ⟨hl.1, ih (k + 1) hl.2 ?_⟩
    simp only [List.length_cons] at hq
    push_cast at hq ⊢
    linarith

/-- Reading off the parent invariant at an index. -/
theorem parentsOKFrom_get (l : List ℤ) (k : ℕ) (hl : ParentsOKFrom k l) :
    ∀ (i : ℕ) (p : ℤ), l[i]? = some p → p < (k : ℤ) + (i : ℤ) := by
  induction l generalizing k with
  | nil => intro i p h; simp at h
  | cons q rest ih =>
    intro i p h
    cases i with
    | zero =>
      simp only [List.getElem?_cons_zero, Option.some.injEq] at h
      subst h
      have h1 := hl.1
      push_cast
      linarith
    | succ n =>
      have h' := ih (k + 1) hl.2 n p (by simpa using h)
      push_cast at h' ⊢
      linarith

/-- The delta-queue loop preserves the parent invariant: every appended
record's parent id points strictly before its own position, because every
queued particle carries a parent id below the current record count and each
secondary is enqueued with the record count at which its generator's record
is then appended. -/
theorem runStepping_parentsOK (os : List ℕ) (queue mcs : List ℤ)
    (hq : ∀ p ∈ queue, p < (mcs.length : ℤ))
    (hm : ParentsOKFrom 0 mcs) :
    ParentsOKFrom 0 (runStepping os queue mcs) := by
  induction os generalizing queue mcs with
  | nil =>
    cases queue with
    | nil => exact hm
    | cons p rest => exact hm
  | cons k os ih =>
    cases queue with
    | nil => exact hm
    | cons p rest =>
      show ParentsOKFrom 0
        (runStepping os (rest ++ List.replicate k (mcs.length : ℤ)) (mcs ++ [p]))
      apply ih
      · intro q hq'
        rw [List.length_append, List.length_singleton]
        rcases List.mem_append.1 hq' with h | h
        · have := hq q (List.mem_cons_of_mem _ h)
          push_cast
          linarith
        · rw [List.eq_of_mem_replicate h]
          push_cast
          linarith
      · apply parentsOKFrom_append _ 0 _ hm
        have := hq p (List.mem_cons_self _ _)
        simpa using this

/-- Claim C6: starting from a queue whose entries have parent ids below the
current record count (primaries carry `-1`) and records whose parent ids
point strictly before themselves, every record produced by the delta-queue
loop has a parent id strictly below its own index; after the loop, the
resolution pass links every nonnegative parent id to the earlier-appended
record at exactly that index, and leaves records with a negative parent id
(primaries) unlinked. -/
theorem c6_parent_linkage (os : List ℕ) (queue mcs : List ℤ)
    (hq : ∀ p ∈ queue, p < (mcs.length : ℤ))
    (hm : ParentsOKFrom 0 mcs) :
    ∀ (i : ℕ) (p : ℤ), (runStepping os queue mcs)[i]? = some p →
      p < (i : ℤ) ∧
      (0 ≤ p → p.toNat < i ∧
        (resolveParents (runStepping os queue mcs))[i]? = some (some p.toNat)) ∧
      (p < 0 → (resolveParents (runStepping os queue mcs))[i]? = some none) := by
  intro i p hget
  have hok := runStepping_parentsOK os queue mcs hq hm
  have hpi : p < (i : ℤ) := by
    simpa using parentsOKFrom_get _ 0 hok i p hget
  have hres : (resolveParents (runStepping os queue mcs))[i]? =
      some (if 0 ≤ p then some p.toNat else none) := by
    unfold resolveParents
    rw [List.getElem?_map, hget]
    rfl
  refine ⟨hpi, ?_, ?_⟩
  · intro hp
    refine ⟨by omega, ?_⟩
    rw [hres, if_pos hp]
  · intro hp
    rw [hres, if_neg (not_le.2 hp)]

/-- Witness for C6: one primary (parent id `-1`) spawning one secondary;
the secondary's record lands at index 1 with parent id 0, the index of its
generator's record, and is resolved to that index. -/
theorem c6_witness :
    (resolveParents (runStepping [1, 0] [-1] []))[1]? = some (some 0) := by
  have h := c6_parent_linkage [1, 0] [-1] []
    (by
      intro p hp
      simp only [List.mem_singleton] at hp
      subst hp
      decide)
    trivial 1 0 (by decide)
  exact (h.2.1 (by norm_num)).2

/-- Claim C7: whenever shell selection picks an inner shell (`is ≥ 2`) and
the photon energy does not exceed that shell's binding energy (so the
computed photoelectron energy is `≤ 0`), `getIonization` returns the empty
stack -- no pair energies at all, in particular no negative energy. -/
theorem c7_nonpositive_photoelectron_empty (eγ : ℚ) (rs : List ℚ) (is : ℕ)
    (hsel : (shellSelect eγ rs).1 = is) (h2 : 2 ≤ is)
    (hE : eγ ≤ energy_shell is) :
    getIonization eγ rs = [] := by
  simp only [getIonization]
  rw [hsel, if_neg (by omega : ¬ is ≤ 1)]
  simp only [innerShell]
  rw [if_pos (by linarith : eγ - energy_shell is ≤ 0)]

/-- Witness for C7: at 100 eV the interpolated L1 and K columns vanish and
a draw at the top of the unit interval falls through all cumulative bins,
selecting shell index 4 (K, binding energy 1839 eV); the photoelectron
energy is negative and the cascade is aborted. -/
theorem c7_witness : getIonization 100 [1] = [] := by
  have hsel : (shellSelect 100 [1]).1 = 4 := by
    norm_num [shellSelect, findBin, findBin.go, interp, next, EPP, PM, PL23,
      PL1, PK, energy_shell]
  exact c7_nonpositive_photoelectron_empty 100 [1] 4 hsel (by norm_num)
    (by norm_num [energy_shell])

/-- Claim C10: in the valence-band branch (selected shell index `≤ 1`), a
photon below 0.1 eV yields the empty stack; otherwise exactly two energies
are returned whose sum is exactly the photon energy: `rv*Eg` and
`(1-rv)*Eg` when `Eg < 12` eV, and `rv*12` and `Eg - rv*12` when `Eg` is at
or above the valence band width. -/
theorem c10_valence_split (eγ : ℚ) (rs : List ℚ)
    (hsel : (shellSelect eγ rs).1 ≤ 1) :
    (eγ < 0.1 → getIonization eγ rs = []) ∧
    (0.1 ≤ eγ →
      (getIonization eγ rs).length = 2 ∧
      (getIonization eγ rs).sum = eγ ∧
      (eγ < 12 → getIonization eγ rs =
        [(1 - (next (shellSelect eγ rs).2).1) * eγ,
         (next (shellSelect eγ rs).2).1 * eγ]) ∧
      (12 ≤ eγ → getIonization eγ rs =
        [eγ - (next (shellSelect eγ rs).2).1 * 12,
         (next (shellSelect eγ rs).2).1 * 12])) := by
  have hgi : getIonization eγ rs = valence eγ (shellSelect eγ rs).2 := by
    simp only [getIonization]
    rw [if_pos hsel]
  have h12 : energy_shell 1 = (12 : ℚ) := by norm_num [energy_shell]
  constructor
  · intro h
    rw [hgi]
    unfold valence
    rw [if_pos h]
  · intro h
    rw [hgi]
    unfold valence
    rw [if_neg (not_lt.2 h), h12]
    by_cases hlt : eγ < 12
    · rw [if_pos hlt]
      refine ⟨rfl, ?_, fun _ => rfl, fun hge => absurd hlt (not_lt.2 hge)⟩
      simp only [List.sum_cons, List.sum_nil]
      ring
    · rw [if_neg hlt]
      refine ⟨rfl, ?_, fun h' => absurd h' hlt, fun _ => rfl⟩
      simp only [List.sum_cons, List.sum_nil]
      ring

/-- Witness for C10 at 50 eV (selected shell index 1) with draw `1/2`:
two energies `44` and `6` summing to the photon energy. -/
theorem c10_witness :
    (getIonization 50 [1 / 2]).length = 2 ∧
    (getIonization 50 [1 / 2]).sum = 50 := by
  have hsel : (shellSelect 50 [1 / 2]).1 ≤ 1 := by
    norm_num [shellSelect, energy_shell, EPP]
  have h := c10_valence_split 50 [1 / 2] hsel
  exact ⟨(h.2 (by norm_num)).1, (h.2 (by norm_num)).2.1⟩

/-- Claim C8 (amended): the full collision parameters are recomputed
exactly when the energy fell below 90% of its value at the previous
computation (and the sentinel `Ekprev = 9e9` makes any first iteration with
`Ek < 8.1e9` recompute); on iterations without the trigger the parameters
survive the guard unchanged.  In addition -- this is the amendment -- after
every inelastic collision of an electron the elastic parameters (inverse
elastic path length and screening parameter) are recomputed at the reduced
energy, while the inverse inelastic path length, `totsig` and `nlast` stay
unchanged; for non-electrons nothing changes. -/
theorem c8_update_discipline (Pr : MathPrims) (T : SiTables) (C : PhysConsts)
    (t : ParticleType) (H0 : ℕ → ℚ) (p : CollisionParams)
    (Ekprev Ek Enew : ℚ) :
    (¬ Ek < 0.9 * Ekprev → maybeUpdate Pr T C t H0 p Ekprev Ek = (p, Ekprev)) ∧
    (Ek < 0.9 * Ekprev →
      maybeUpdate Pr T C t H0 p Ekprev Ek =
        (computeParams Pr T C t Ek H0 p.totsig p.nlast p.screening, Ek)) ∧
    (Ek < 0.9 * EkprevInit →
      maybeUpdate Pr T C t H0 p EkprevInit Ek =
        (computeParams Pr T C t Ek H0 p.totsig p.nlast p.screening, Ek)) ∧
    (t ≠ ParticleType.ELECTRON → postInelasticParams C t p Enew = p) ∧
    (postInelasticParams C t p Enew).invInelastic = p.invInelastic ∧
    (postInelasticParams C t p Enew).totsig = p.totsig ∧
    (postInelasticParams C t p Enew).nlast = p.nlast ∧
    (t = ParticleType.ELECTRON →
      (postInelasticParams C t p Enew).invElastic =
        (update_elastic C t Enew p.screening).1 ∧
      (postInelasticParams C t p Enew).screening =
        (update_elastic C t Enew p.screening).2) := by
  refine ⟨?_, ?_, ?_, ?_, ?_, ?_, ?_, ?_⟩
  · intro h
    unfold maybeUpdate
    rw [if_neg h]
  · intro h
    unfold maybeUpdate
    rw [if_pos h]
  · intro h
    unfold maybeUpdate
    rw [if_pos h]
  · intro h
    unfold postInelasticParams
    rw [if_neg h]
  · unfold postInelasticParams
    split_ifs <;> rfl
  · unfold postInelasticParams
    split_ifs <;> rfl
  · unfold postInelasticParams
    split_ifs <;> rfl
  · intro h
    unfold postInelasticParams
    rw [if_pos h]
    exact ⟨rfl, rfl⟩

/-- Witness for C8: with no trigger the guard keeps the parameters, and a
non-electron inelastic collision leaves them untouched. -/
theorem c8_witness :
    maybeUpdate ⟨fun _ => 0, fun _ => 0⟩
      ⟨fun _ => 1, fun _ => 1, fun _ => 0, fun _ => 0, fun _ => 0,
        fun _ => 0, fun _ => 0⟩
      ⟨1, 1⟩ ParticleType.PROTON (fun _ => 0)
      ⟨0, 1, 1, fun _ => 0, 0⟩ 1 1 =
      (⟨0, 1, 1, fun _ => 0, 0⟩, 1) ∧
    postInelasticParams ⟨1, 1⟩ ParticleType.PROTON
      ⟨0, 1, 1, fun _ => 0, 0⟩ (1 / 2) = ⟨0, 1, 1, fun _ => 0, 0⟩ := by
  have h := c8_update_discipline ⟨fun _ => 0, fun _ => 0⟩
    ⟨fun _ => 1, fun _ => 1, fun _ => 0, fun _ => 0, fun _ => 0,
      fun _ => 0, fun _ => 0⟩
    ⟨1, 1⟩ ParticleType.PROTON (fun _ => 0)
    ⟨0, 1, 1, fun _ => 0, 0⟩ 1 1 (1 / 2)
  exact ⟨h.1 (by norm_num), h.2.2.2.1 (by decide)⟩

/-- Counterexample for C8 as stated: an electron losing 10 keV out of 1 MeV
(staying far above 90% of the energy at the last computation, so the guard
does not fire) still has its screening parameter recomputed at the reduced
energy by the inelastic branch, so the collision parameters do not stay
unchanged on that step. -/
theorem c8_counterexample : ¬ c8ClaimStatement := by
  intro h
  have hinst := h ⟨fun _ => 0, fun _ => 0⟩
    ⟨fun _ => 1, fun _ => 1, fun _ => 0, fun _ => 0, fun _ => 0,
      fun _ => 0, fun _ => 0⟩
    ⟨1, 1⟩ ParticleType.ELECTRON (fun _ => 0)
    ⟨0, 1, 1, fun _ => 0, 0⟩ 1 1 10000 (9 / 1000)
    (by norm_num) (by norm_num) (by norm_num) (by norm_num) (by norm_num)
    (by norm_num)
  have hscr := congrArg CollisionParams.screening hinst
  norm_num [inelasticIteration, maybeUpdate, postInelasticParams,
    inelasticLoss, update_elastic, momentumSq, gammaOf, mass] at hscr

end Bichsel
